import Mathlib

/-!
Shallow embedding of the assignment/audit reconciler of the Boost_Audit
repository (`app/routes/school_assignment_routes.py`).

Modelling conventions:
* Mongo ObjectIds are modelled as natural numbers.
* Timestamps (`created_at`, `datetime.now(...)`) are modelled as natural
  numbers; ISO formatting is presentation only and is dropped.
* Calendar-date strings of the form YYYY-MM-DD that are only compared for
  equality (the audit `audit_date` against the target date of the read
  path) stay `String`; dates that undergo calendar arithmetic in
  `assign_schools` (`assignment_date` against today and today + 7 days)
  are modelled as day ordinals (`Nat`), which is faithful because the
  code first parses them with `datetime.strptime` and then compares the
  resulting date objects.  The `strptime` failure branch (400 on a
  malformed string) is outside the model.
* A Python dict keyed by strings is an association list with
  first-match lookup and in-place overwrite, which preserves the dict
  semantics the code relies on.
* `document.get(field)` of an optional field is an `Option` field of the
  corresponding structure.
-/

/-- A document of the `school_audits` collection, with the fields the
reconciler reads.  `sections` and `responses` model the
substantive-content payloads whose Python truthiness is tested by the
phantom-start rule (absent is modelled as `[]`). -/
structure Audit where
  id : Nat
  auditor_email : String
  user_email : String
  school_name : String
  city : String
  status : String
  audit_date : Option String
  assignment_date : Option Nat
  start_timestamp : Option String
  completion_timestamp : Option String
  sections : List String
  responses : List String
  created_at : Nat
  completed_at : Option Nat
deriving DecidableEq

/-- One value of the `audit_lookup` dict built by `get_today_assignments`:
the audit chosen so far for one identity key. -/
structure ResolvedEntry where
  status : String
  audit_id : Nat
  start_timestamp : Option String
  completion_timestamp : Option String
  audit_data : Audit
  audit_date : Option String
deriving DecidableEq

/-- Python str.lower, modelled character by character. -/
def lowerStr (s : String) : String :=
  String.mk (s.data.map Char.toLower)

/-- Identity key of a school: lowercase school_name + "|" + lowercase city
(the code computes `f"{school_name}|{city}".lower()`). -/
def identKey (school_name city : String) : String :=
  lowerStr (school_name ++ "|" ++ city)

/-- Dict lookup: first binding of the key, if any. -/
def assocFind : List (String × ResolvedEntry) → String → Option ResolvedEntry
  | [], _ => none
  | (k', v) :: rest, k => if k' = k then some v else assocFind rest k

/-- Dict overwrite of an existing key (keeps the binding position, as a
Python dict does). -/
def assocSet : List (String × ResolvedEntry) → String → ResolvedEntry → List (String × ResolvedEntry)
  | [], k, v => [(k, v)]
  | (k', v') :: rest, k, v => if k' = k then (k, v) :: rest else (k', v') :: assocSet rest k v

/-- The entry stored for an `in_progress` audit (completion_timestamp is
reset to none by the code). -/
def mkInProgressEntry (a : Audit) : ResolvedEntry :=
  { status := "in_progress"
    audit_id := a.id
    start_timestamp := a.start_timestamp
    completion_timestamp := none
    audit_data := a
    audit_date := a.audit_date }

/-- The entry stored for a `completed` audit. -/
def mkCompletedEntry (a : Audit) : ResolvedEntry :=
  { status := "completed"
    audit_id := a.id
    start_timestamp := a.start_timestamp
    completion_timestamp := a.completion_timestamp
    audit_data := a
    audit_date := a.audit_date }

/-- One iteration of the `for audit in audits` loop of
`get_today_assignments` that folds the recency-sorted audit list into
`audit_lookup`.  `targetDate` is the `assignment_date` request parameter. -/
def foldStep (targetDate : String) (lookup : List (String × ResolvedEntry)) (a : Audit) :
    List (String × ResolvedEntry) :=
  let key := identKey a.school_name a.city
  match assocFind lookup key with
  | some existing =>
    if a.status = "in_progress" then
      assocSet lookup key (mkInProgressEntry a)
    else if a.status = "completed" ∧ existing.status ≠ "in_progress" then
      if a.audit_date = some targetDate then
        assocSet lookup key (mkCompletedEntry a)
      else if existing.status ≠ "completed" then
        assocSet lookup key (mkCompletedEntry a)
      else
        lookup
    else
      lookup
  | none =>
    if a.status = "in_progress" then
      assocSet lookup key (mkInProgressEntry a)
    else if a.status = "completed" then
      assocSet lookup key (mkCompletedEntry a)
    else
      lookup

/-- The whole fold: `audits` is the audit list already sorted by
`created_at` descending (most recent first), exactly as the code receives
it from `find(...).sort('created_at', -1)`. -/
def auditLookup (targetDate : String) (audits : List Audit) : List (String × ResolvedEntry) :=
  audits.foldl (foldStep targetDate) []

/-- Resolved status for one identity key. -/
def resolvedStatus (targetDate : String) (audits : List Audit) (k : String) : Option String :=
  (assocFind (auditLookup targetDate audits) k).map ResolvedEntry.status

/-- Resolved audit id for one identity key. -/
def resolvedId (targetDate : String) (audits : List Audit) (k : String) : Option Nat :=
  (assocFind (auditLookup targetDate audits) k).map ResolvedEntry.audit_id

/-- C1: in the audit-status resolution of the read path, for every pair of
audits with the same identity key where one has status in_progress and the
other has status completed, in either creation order, the resolved status
for that key is in_progress. -/
theorem c1_in_progress_dominates (d : String) (a b : Audit)
    (hk : identKey a.school_name a.city = identKey b.school_name b.city)
    (hs : (a.status = "in_progress" ∧ b.status = "completed") ∨
          (a.status = "completed" ∧ b.status = "in_progress")) :
    resolvedStatus d [a, b] (identKey a.school_name a.city) = some "in_progress" := by
  rcases hs with ⟨ha, hb⟩ | ⟨ha, hb⟩ <;>
    simp [resolvedStatus, auditLookup, foldStep, assocFind, assocSet, ha, hb, ← hk,
      mkInProgressEntry, mkCompletedEntry]

/-- Concrete instantiation of c1_in_progress_dominates. -/
theorem c1_witness :
    resolvedStatus "2024-05-01"
      [{ id := 1, auditor_email := "t@x", user_email := "t@x", school_name := "St Marys",
         city := "Pune", status := "in_progress", audit_date := some "2024-05-01",
         assignment_date := none, start_timestamp := none, completion_timestamp := none,
         sections := [], responses := [], created_at := 10, completed_at := none },
       { id := 2, auditor_email := "t@x", user_email := "t@x", school_name := "St Marys",
         city := "Pune", status := "completed", audit_date := some "2024-05-01",
         assignment_date := none, start_timestamp := none, completion_timestamp := none,
         sections := [], responses := [], created_at := 5, completed_at := none }]
      (identKey "St Marys" "Pune") = some "in_progress" :=
  c1_in_progress_dominates "2024-05-01" _ _ rfl (Or.inl ⟨rfl, rfl⟩)

/-- C2: for every pair of completed audits with the same identity key and
different audit_date values where exactly one audit_date equals the target
date, the resolved entry for that key is the audit whose audit_date equals
the target date, regardless of which audit is more recent (the fold input
[a, b] is in most-recent-first order, and both assignments of the dated
audit to a or b are covered). -/
theorem c2_same_day_completed_preferred (d : String) (a b : Audit)
    (hk : identKey a.school_name a.city = identKey b.school_name b.city)
    (ha : a.status = "completed") (hb : b.status = "completed")
    (hd : (a.audit_date = some d ∧ b.audit_date ≠ some d) ∨
          (a.audit_date ≠ some d ∧ b.audit_date = some d)) :
    resolvedId d [a, b] (identKey a.school_name a.city) =
      some (if a.audit_date = some d then a.id else b.id) := by
  rcases hd with ⟨hda, hdb⟩ | ⟨hda, hdb⟩ <;>
    simp [resolvedId, auditLookup, foldStep, assocFind, assocSet, ha, hb, ← hk,
      hda, hdb, mkCompletedEntry]

/-- Concrete instantiation of c2_same_day_completed_preferred: the older
audit carries the target date and is chosen over the more recent one. -/
theorem c2_witness :
    resolvedId "2024-05-01"
      [{ id := 1, auditor_email := "t@x", user_email := "t@x", school_name := "St Marys",
         city := "Pune", status := "completed", audit_date := some "2024-04-30",
         assignment_date := none, start_timestamp := none, completion_timestamp := none,
         sections := [], responses := [], created_at := 10, completed_at := none },
       { id := 2, auditor_email := "t@x", user_email := "t@x", school_name := "St Marys",
         city := "Pune", status := "completed", audit_date := some "2024-05-01",
         assignment_date := none, start_timestamp := none, completion_timestamp := none,
         sections := [], responses := [], created_at := 5, completed_at := none }]
      (identKey "St Marys" "Pune") = some 2 :=
  c2_same_day_completed_preferred "2024-05-01" _ _ rfl rfl rfl
    (Or.inr ⟨by decide, rfl⟩)

/-- Helper: when the second audit of a same-key pair has the same priority
as the first (both in_progress, or both completed with the target
audit_date), the fold overwrites the entry with the second audit. -/
theorem tie_overwritten_by_second (d : String) (a b : Audit)
    (hk : identKey a.school_name a.city = identKey b.school_name b.city)
    (hs : (a.status = "in_progress" ∧ b.status = "in_progress") ∨
          (a.status = "completed" ∧ b.status = "completed" ∧
           a.audit_date = some d ∧ b.audit_date = some d)) :
    resolvedId d [a, b] (identKey a.school_name a.city) = some b.id := by
  rcases hs with ⟨ha, hb⟩ | ⟨ha, hb, hda, hdb⟩
  · simp [resolvedId, auditLookup, foldStep, assocFind, assocSet, ha, hb, ← hk,
      mkInProgressEntry]
  · simp [resolvedId, auditLookup, foldStep, assocFind, assocSet, ha, hb, hda, hdb, ← hk,
      mkCompletedEntry]

/-- C3 counterexample: two in_progress audits for the same key, the list in
most-recent-first order (created_at 10 before created_at 5).  The claim
says the most recently created audit (id 1) is resolved; the code resolves
the older one (id 2), because each same-status audit processed later
overwrites the entry. -/
theorem c3_counterexample :
    resolvedId "2024-05-01"
      [{ id := 1, auditor_email := "t@x", user_email := "t@x", school_name := "St Marys",
         city := "Pune", status := "in_progress", audit_date := some "2024-05-01",
         assignment_date := none, start_timestamp := none, completion_timestamp := none,
         sections := [], responses := [], created_at := 10, completed_at := none },
       { id := 2, auditor_email := "t@x", user_email := "t@x", school_name := "St Marys",
         city := "Pune", status := "in_progress", audit_date := some "2024-05-01",
         assignment_date := none, start_timestamp := none, completion_timestamp := none,
         sections := [], responses := [], created_at := 5, completed_at := none }]
      (identKey "St Marys" "Pune") = some 2 ∧
    resolvedId "2024-05-01"
      [{ id := 1, auditor_email := "t@x", user_email := "t@x", school_name := "St Marys",
         city := "Pune", status := "in_progress", audit_date := some "2024-05-01",
         assignment_date := none, start_timestamp := none, completion_timestamp := none,
         sections := [], responses := [], created_at := 10, completed_at := none },
       { id := 2, auditor_email := "t@x", user_email := "t@x", school_name := "St Marys",
         city := "Pune", status := "in_progress", audit_date := some "2024-05-01",
         assignment_date := none, start_timestamp := none, completion_timestamp := none,
         sections := [], responses := [], created_at := 5, completed_at := none }]
      (identKey "St Marys" "Pune") ≠ some 1 := by
  have h := tie_overwritten_by_second "2024-05-01"
    { id := 1, auditor_email := "t@x", user_email := "t@x", school_name := "St Marys",
      city := "Pune", status := "in_progress", audit_date := some "2024-05-01",
      assignment_date := none, start_timestamp := none, completion_timestamp := none,
      sections := [], responses := [], created_at := 10, completed_at := none }
    { id := 2, auditor_email := "t@x", user_email := "t@x", school_name := "St Marys",
      city := "Pune", status := "in_progress", audit_date := some "2024-05-01",
      assignment_date := none, start_timestamp := none, completion_timestamp := none,
      sections := [], responses := [], created_at := 5, completed_at := none }
    rfl (Or.inl ⟨rfl, rfl⟩)
  exact ⟨h, by simp [h]⟩

/-- C3 amended: when two audits for the same identity key have the same
status and neither is preferred by a higher rule (two in_progress audits,
or two completed audits both with audit_date equal to the target date),
the LEAST recently created audit of the pair is the one resolved for that
key, because each equal-priority audit processed later in the
most-recent-first fold overwrites the entry. -/
theorem c3_amended_oldest_wins_on_ties (d : String) (a b : Audit)
    (hk : identKey a.school_name a.city = identKey b.school_name b.city)
    (_hrec : b.created_at ≤ a.created_at)
    (hs : (a.status = "in_progress" ∧ b.status = "in_progress") ∨
          (a.status = "completed" ∧ b.status = "completed" ∧
           a.audit_date = some d ∧ b.audit_date = some d)) :
    resolvedId d [a, b] (identKey a.school_name a.city) = some b.id :=
  tie_overwritten_by_second d a b hk hs

/-- Concrete instantiation of c3_amended_oldest_wins_on_ties. -/
theorem c3_amended_witness :
    resolvedId "2024-05-01"
      [{ id := 1, auditor_email := "t@x", user_email := "t@x", school_name := "St Marys",
         city := "Pune", status := "in_progress", audit_date := some "2024-05-01",
         assignment_date := none, start_timestamp := none, completion_timestamp := none,
         sections := [], responses := [], created_at := 10, completed_at := none },
       { id := 2, auditor_email := "t@x", user_email := "t@x", school_name := "St Marys",
         city := "Pune", status := "in_progress", audit_date := some "2024-05-01",
         assignment_date := none, start_timestamp := none, completion_timestamp := none,
         sections := [], responses := [], created_at := 5, completed_at := none }]
      (identKey "St Marys" "Pune") = some 2 :=
  c3_amended_oldest_wins_on_ties "2024-05-01" _ _ rfl (by decide) (Or.inl ⟨rfl, rfl⟩)

/-- A school element of an assignment document (the per-school record the
routes store and update).  Clients may send arbitrary values for the audit
fields; assign_schools overwrites them. -/
structure SchoolRec where
  school_name : String
  city : String
  audit_status : String
  audit_id : Option Nat
  last_updated : Option Nat
  audit_started_at : Option Nat
  audit_completed_at : Option Nat
deriving DecidableEq

/-- Identity key of a school record. -/
def keyOf (s : SchoolRec) : String :=
  identKey s.school_name s.city

/-- One element of the `enhanced_schools` response list built by
`get_today_assignments`.  `audit_date` is an optional response field (it
is present only when a resolution was attached), whose value is itself the
optional audit_date of the chosen audit; `current_audit_data` is attached
only for in_progress resolutions. -/
structure EnhancedSchool where
  base : SchoolRec
  audit_status : String
  audit_id : Option Nat
  start_timestamp : Option String
  completion_timestamp : Option String
  audit_date : Option (Option String)
  current_audit_data : Option Audit
deriving DecidableEq

/-- The summary counters of the read path. -/
structure Counts where
  completed : Nat
  in_progress : Nat
  pending : Nat
deriving DecidableEq

/-- One `summary_counts[audit_status] += 1` step.  In the code the key is
always one of the three counters (lookup entries only carry in_progress or
completed, and the fallback branches count pending). -/
def bumpCount (c : Counts) (st : String) : Counts :=
  if st = "completed" then { c with completed := c.completed + 1 }
  else if st = "in_progress" then { c with in_progress := c.in_progress + 1 }
  else { c with pending := c.pending + 1 }

/-- The body of the `for school in unique_schools` loop of
`get_today_assignments`: attach the resolved audit status, downgrading a
resolved in_progress audit with no substantial data (no sections and no
responses) to pending with no audit reference. -/
def enhanceSchool (lookup : List (String × ResolvedEntry)) (s : SchoolRec) : EnhancedSchool :=
  match assocFind lookup (keyOf s) with
  | some info =>
    if info.status = "in_progress" ∧ info.audit_data.sections = [] ∧
        info.audit_data.responses = [] then
      { base := s, audit_status := "pending", audit_id := none, start_timestamp := none,
        completion_timestamp := none, audit_date := none, current_audit_data := none }
    else
      { base := s, audit_status := info.status, audit_id := some info.audit_id,
        start_timestamp := info.start_timestamp,
        completion_timestamp := info.completion_timestamp,
        audit_date := some info.audit_date,
        current_audit_data :=
          if info.status = "in_progress" then some info.audit_data else none }
  | none =>
    { base := s, audit_status := "pending", audit_id := none, start_timestamp := none,
      completion_timestamp := none, audit_date := none, current_audit_data := none }

/-- The whole enhancement loop: the enhanced school list together with the
summary counters (the counter bumped for a school is exactly the status it
is reported with). -/
def mergeSchools (lookup : List (String × ResolvedEntry)) : List SchoolRec → List EnhancedSchool × Counts
  | [] => ([], { completed := 0, in_progress := 0, pending := 0 })
  | s :: rest =>
    let e := enhanceSchool lookup s
    let (es, c) := mergeSchools lookup rest
    (e :: es, bumpCount c e.audit_status)

/-- The dedup pass of the read path (`seen_identifiers` is the set of keys
already kept; the loop keeps the first occurrence of each key). -/
def dedupAux : List SchoolRec → List String → List SchoolRec
  | [], _ => []
  | s :: rest, seen =>
    if keyOf s ∈ seen then dedupAux rest seen
    else s :: dedupAux rest (keyOf s :: seen)

/-- Dedup of a raw assignment school list, starting from an empty seen set. -/
def dedupSchools (l : List SchoolRec) : List SchoolRec :=
  dedupAux l []

/-- The `duplicates_removed` response field: original length minus unique
length. -/
def duplicatesRemoved (l : List SchoolRec) : Nat :=
  l.length - (dedupSchools l).length

/-- Helper: bumping both sides of the counters with the same status
preserves a pending-offset / in_progress-equality relation. -/
theorem bumpCount_offset (c1 c2 : Counts) (st : String)
    (hp : c1.pending = c2.pending + 1) (hi : c1.in_progress = c2.in_progress) :
    (bumpCount c1 st).pending = (bumpCount c2 st).pending + 1 ∧
    (bumpCount c1 st).in_progress = (bumpCount c2 st).in_progress := by
  unfold bumpCount
  split_ifs <;> simp_all

/-- C4: for every school whose resolved audit has status in_progress but
whose audit document has no sections and no responses, the school is
reported with audit_status pending and audit_id none, and inserting it at
any position of the school list increments the pending summary count and
leaves the in_progress count unchanged (it is counted under pending, not
in_progress). -/
theorem c4_phantom_start_downgrade (lookup : List (String × ResolvedEntry))
    (s : SchoolRec) (info : ResolvedEntry)
    (h1 : assocFind lookup (keyOf s) = some info)
    (h2 : info.status = "in_progress")
    (h3 : info.audit_data.sections = [])
    (h4 : info.audit_data.responses = []) :
    (enhanceSchool lookup s).audit_status = "pending" ∧
    (enhanceSchool lookup s).audit_id = none ∧
    ∀ ss1 ss2 : List SchoolRec,
      (mergeSchools lookup (ss1 ++ s :: ss2)).2.pending
        = (mergeSchools lookup (ss1 ++ ss2)).2.pending + 1 ∧
      (mergeSchools lookup (ss1 ++ s :: ss2)).2.in_progress
        = (mergeSchools lookup (ss1 ++ ss2)).2.in_progress := by
  have he : enhanceSchool lookup s =
      { base := s, audit_status := "pending", audit_id := none, start_timestamp := none,
        completion_timestamp := none, audit_date := none, current_audit_data := none } := by
    simp [enhanceSchool, h1, h2, h3, h4]
  refine ⟨by rw [he], by rw [he], ?_⟩
  intro ss1 ss2
  induction ss1 with
  | nil =>
    simp only [List.nil_append, mergeSchools, he]
    constructor
    · simp [bumpCount]
    · simp [bumpCount]
  | cons h t ih =>
    simp only [List.cons_append, mergeSchools]
    exact bumpCount_offset _ _ _ ih.1 ih.2

/-- Concrete phantom-start audit used by the C4 witness. -/
def phantomAudit : Audit :=
  { id := 7, auditor_email := "t@x", user_email := "t@x", school_name := "St Marys",
    city := "Pune", status := "in_progress", audit_date := some "2024-05-01",
    assignment_date := none, start_timestamp := none, completion_timestamp := none,
    sections := [], responses := [], created_at := 3, completed_at := none }

/-- Concrete audit_lookup used by the C4 witness. -/
def phantomLookup : List (String × ResolvedEntry) :=
  [(identKey "St Marys" "Pune", mkInProgressEntry phantomAudit)]

/-- Concrete school used by the C4 witness. -/
def phantomSchool : SchoolRec :=
  { school_name := "St Marys", city := "Pune", audit_status := "pending",
    audit_id := none, last_updated := none, audit_started_at := none,
    audit_completed_at := none }

/-- Concrete instantiation of c4_phantom_start_downgrade. -/
theorem c4_witness :
    (enhanceSchool phantomLookup phantomSchool).audit_status = "pending" ∧
    (enhanceSchool phantomLookup phantomSchool).audit_id = none ∧
    ((mergeSchools phantomLookup [phantomSchool]).2.pending
        = (mergeSchools phantomLookup []).2.pending + 1 ∧
      (mergeSchools phantomLookup [phantomSchool]).2.in_progress
        = (mergeSchools phantomLookup []).2.in_progress) := by
  have h := c4_phantom_start_downgrade phantomLookup phantomSchool
    (mkInProgressEntry phantomAudit)
    (by simp [phantomLookup, phantomSchool, assocFind, keyOf]) rfl rfl rfl
  exact ⟨h.1, h.2.1, h.2.2 [] []⟩

/-- Helper: the dedup pass returns a subsequence of its input. -/
theorem dedupAux_sublist (l : List SchoolRec) : ∀ seen : List String, (dedupAux l seen).Sublist l := by
  induction l with
  | nil => intro seen; simp [dedupAux]
  | cons s rest ih =>
    intro seen
    simp only [dedupAux]
    split_ifs with h
    · exact (ih seen).cons s
    · exact (ih (keyOf s :: seen)).cons₂ s

/-- Helper: the keys kept by the dedup pass are distinct and avoid the
seen set. -/
theorem dedupAux_keys_nodup (l : List SchoolRec) : ∀ seen : List String,
    ((dedupAux l seen).map keyOf).Nodup ∧ ∀ k ∈ (dedupAux l seen).map keyOf, k ∉ seen := by
  induction l with
  | nil => intro seen; simp [dedupAux]
  | cons s rest ih =>
    intro seen
    simp only [dedupAux]
    split_ifs with h
    · exact ih seen
    · obtain ⟨hn, hs⟩ := ih (keyOf s :: seen)
      refine ⟨?_, ?_⟩
      · simp only [List.map_cons, List.nodup_cons]
        exact ⟨fun hmem => (hs _ hmem) (List.mem_cons_self _ _), hn⟩
      · intro k hk
        rcases List.mem_cons.mp hk with rfl | hk
        · exact h
        · exact fun hkseen => hs k hk (List.mem_cons_of_mem _ hkseen)

/-- Helper: every key of the input is in the seen set or among the kept
keys. -/
theorem dedupAux_covers (l : List SchoolRec) : ∀ seen : List String, ∀ s ∈ l,
    keyOf s ∈ seen ∨ keyOf s ∈ (dedupAux l seen).map keyOf := by
  induction l with
  | nil => intro seen s hs; cases hs
  | cons t rest ih =>
    intro seen s hs
    simp only [dedupAux]
    split_ifs with h
    · rcases List.mem_cons.mp hs with rfl | hs'
      · exact Or.inl h
      · exact ih seen s hs'
    · rcases List.mem_cons.mp hs with rfl | hs'
      · exact Or.inr (by simp)
      · rcases ih (keyOf t :: seen) s hs' with hseen | hmem
        · rcases List.mem_cons.mp hseen with heq | hseen'
          · exact Or.inr (by simp [heq])
          · exact Or.inl hseen'
        · exact Or.inr (List.mem_cons_of_mem _ hmem)

/-- Helper: every school kept by the dedup pass is the first element of the
input carrying its key. -/
theorem dedupAux_first_occ (l : List SchoolRec) : ∀ seen : List String, ∀ s ∈ dedupAux l seen,
    keyOf s ∉ seen ∧ l.find? (fun t => keyOf t == keyOf s) = some s := by
  induction l with
  | nil => intro seen s hs; simp [dedupAux] at hs
  | cons t rest ih =>
    intro seen s hs
    simp only [dedupAux] at hs
    by_cases h : keyOf t ∈ seen
    · rw [if_pos h] at hs
      obtain ⟨hnot, hfind⟩ := ih seen s hs
      have hne : keyOf t ≠ keyOf s := fun he => hnot (he ▸ h)
      refine ⟨hnot, ?_⟩
      rw [List.find?_cons_of_neg, hfind]
      simpa using hne
    · rw [if_neg h] at hs
      rcases List.mem_cons.mp hs with rfl | hs'
      · refine ⟨h, ?_⟩
        rw [List.find?_cons_of_pos]
        simp
      · obtain ⟨hnot, hfind⟩ := ih (keyOf t :: seen) s hs'
        have hne : keyOf t ≠ keyOf s := fun he => hnot (he ▸ List.mem_cons_self _ _)
        refine ⟨fun hseen => hnot (List.mem_cons_of_mem _ hseen), ?_⟩
        rw [List.find?_cons_of_neg, hfind]
        simpa using hne

/-- Helper: the dedup output has one school per distinct identity key of
the input. -/
theorem dedupSchools_length (l : List SchoolRec) :
    (dedupSchools l).length = ((l.map keyOf).dedup).length := by
  have hnodup := (dedupAux_keys_nodup l []).1
  have hmem : ∀ k, k ∈ (dedupSchools l).map keyOf ↔ k ∈ (l.map keyOf).dedup := by
    intro k
    rw [List.mem_dedup]
    constructor
    · intro hk
      exact ((dedupAux_sublist l []).map keyOf).mem hk
    · intro hk
      obtain ⟨s, hs, rfl⟩ := List.mem_map.mp hk
      rcases dedupAux_covers l [] s hs with h | h
      · cases h
      · exact h
  have hperm : ((dedupSchools l).map keyOf).Perm ((l.map keyOf).dedup) :=
    (List.perm_ext_iff_of_nodup hnodup (List.nodup_dedup _)).mpr hmem
  have := hperm.length_eq
  simpa using this

/-- C5: for a raw school list l with N = l.length schools and
K = ((l.map keyOf).dedup).length distinct identity keys, the read path
dedup keeps exactly K schools, as an order-preserving subsequence of l in
which every kept school is the first element of l with its key and each
key appears exactly once, and reports duplicates_removed = N - K. -/
theorem c5_dedup_first_occurrence (l : List SchoolRec) :
    (dedupSchools l).length = ((l.map keyOf).dedup).length ∧
    (dedupSchools l).Sublist l ∧
    ((dedupSchools l).map keyOf).Nodup ∧
    (∀ s ∈ l, keyOf s ∈ (dedupSchools l).map keyOf) ∧
    (∀ s ∈ dedupSchools l, l.find? (fun t => keyOf t == keyOf s) = some s) ∧
    duplicatesRemoved l = l.length - ((l.map keyOf).dedup).length := by
  refine ⟨dedupSchools_length l, dedupAux_sublist l [], (dedupAux_keys_nodup l []).1, ?_, ?_, ?_⟩
  · intro s hs
    rcases dedupAux_covers l [] s hs with h | h
    · cases h
    · exact h
  · intro s hs
    exact (dedupAux_first_occ l [] s hs).2
  · rw [duplicatesRemoved, dedupSchools_length l]

/-- Concrete school used by the C5 witness (first occurrence of its key). -/
def demoSchoolA : SchoolRec :=
  { school_name := "St Marys", city := "Pune", audit_status := "pending",
    audit_id := none, last_updated := none, audit_started_at := none,
    audit_completed_at := none }

/-- Concrete school used by the C5 witness (duplicate of demoSchoolA's key). -/
def demoSchoolB : SchoolRec :=
  { school_name := "ST MARYS", city := "pune", audit_status := "pending",
    audit_id := some 9, last_updated := none, audit_started_at := none,
    audit_completed_at := none }

/-- Concrete school used by the C5 witness (distinct key). -/
def demoSchoolC : SchoolRec :=
  { school_name := "Central", city := "Delhi", audit_status := "pending",
    audit_id := none, last_updated := none, audit_started_at := none,
    audit_completed_at := none }

/-- Concrete raw list used by the C5 witness: the first two entries share
the identity key "st marys|pune". -/
def demoRawSchools : List SchoolRec :=
  [demoSchoolA, demoSchoolB, demoSchoolC]

/-- Concrete instantiation of c5_dedup_first_occurrence: 3 raw schools,
2 distinct keys, 1 duplicate removed, and the duplicated key resolves to
its first occurrence. -/
theorem c5_witness :
    (dedupSchools demoRawSchools).length = ((demoRawSchools.map keyOf).dedup).length ∧
    duplicatesRemoved demoRawSchools
      = demoRawSchools.length - ((demoRawSchools.map keyOf).dedup).length ∧
    keyOf demoSchoolB ∈ (dedupSchools demoRawSchools).map keyOf ∧
    demoRawSchools.find? (fun t => keyOf t == keyOf demoSchoolA) = some demoSchoolA := by
  have h := c5_dedup_first_occurrence demoRawSchools
  refine ⟨h.1, h.2.2.2.2.2, ?_, ?_⟩
  · exact h.2.2.2.1 demoSchoolB (by decide)
  · exact h.2.2.2.2.1 demoSchoolA (by decide)

/-- A document of the `school_assignments` collection.  Fields absent
until first written (updated_at, previous_assignment_id,
last_sync_update) are Options. -/
structure Assignment where
  id : Nat
  controller_email : String
  trainer_email : String
  assignment_date : Nat
  schools : List SchoolRec
  created_at : Nat
  status : String
  updated_at : Option Nat
  previous_assignment_id : Option Nat
  last_sync_update : Option Nat
deriving DecidableEq

/-- The store state the assignment routes touch: the school_assignments
collection (in insertion order), the set of registered user emails, and
the id the next insert receives. -/
structure Store where
  assignments : List Assignment
  users : List String
  nextId : Nat
deriving DecidableEq

/-- The body of an /assign-schools request. -/
structure AssignReq where
  controller_email : String
  trainer_email : String
  assignment_date : Nat
  schools : List SchoolRec
  allow_overwrite : Bool
deriving DecidableEq

/-- The responses assign_schools can produce (ignoring the 500 handler,
which the model cannot reach). -/
inductive AssignResp where
  | badRequest
  | trainerNotFound
  | conflict (existing : Assignment)
  | created (overwritten : Bool)
deriving DecidableEq

/-- HTTP status code of each assign_schools response. -/
def AssignResp.httpStatus : AssignResp → Nat
  | .badRequest => 400
  | .trainerNotFound => 404
  | .conflict _ => 409
  | .created _ => 201

/-- The per-school initialisation performed by assign_schools on every
request school, regardless of what the client sent in those fields. -/
def initSchool (s : SchoolRec) : SchoolRec :=
  { s with
    audit_status := "pending"
    audit_id := none
    last_updated := none
    audit_started_at := none
    audit_completed_at := none }

/-- find_one on school_assignments filtered by trainer, date and active
status: the first matching document. -/
def findActive (l : List Assignment) (trainer : String) (d : Nat) : Option Assignment :=
  l.find? (fun a => a.trainer_email == trainer && a.assignment_date == d && a.status == "active")

/-- update_one keyed by _id: replace the first document with the given id. -/
def updateFirstById : List Assignment → Nat → Assignment → List Assignment
  | [], _, _ => []
  | a :: rest, i, r => if a.id = i then r :: rest else a :: updateFirstById rest i r

/-- The assignment_record built by assign_schools as stored on the
overwrite path: $set keeps the document id, stamps updated_at AND a fresh
created_at, records the previous id, and leaves fields not in the record
(last_sync_update) as they were. -/
def overwriteRecord (req : AssignReq) (ex : Assignment) (now : Nat) : Assignment :=
  { id := ex.id
    controller_email := req.controller_email
    trainer_email := req.trainer_email
    assignment_date := req.assignment_date
    schools := req.schools.map initSchool
    created_at := now
    status := "active"
    updated_at := some now
    previous_assignment_id := some ex.id
    last_sync_update := ex.last_sync_update }

/-- The assignment_record built by assign_schools as stored on the insert
path. -/
def insertRecord (req : AssignReq) (nextId now : Nat) : Assignment :=
  { id := nextId
    controller_email := req.controller_email
    trainer_email := req.trainer_email
    assignment_date := req.assignment_date
    schools := req.schools.map initSchool
    created_at := now
    status := "active"
    updated_at := none
    previous_assignment_id := none
    last_sync_update := none }

/-- The /assign-schools route.  `today` is the server's current date (day
ordinal) and `now` the current timestamp.  Mirrors the code's order of
checks: required fields, date window, per-school validation and audit
field initialisation, trainer existence, conflict detection, then
overwrite-in-place or insert. -/
def assign_schools (today now : Nat) (st : Store) (req : AssignReq) : AssignResp × Store :=
  if req.controller_email = "" ∨ req.trainer_email = "" ∨ req.schools = [] then
    (AssignResp.badRequest, st)
  else if req.assignment_date < today then
    (AssignResp.badRequest, st)
  else if today + 7 < req.assignment_date then
    (AssignResp.badRequest, st)
  else if ∃ s ∈ req.schools, s.school_name = "" ∨ s.city = "" then
    (AssignResp.badRequest, st)
  else if req.trainer_email ∈ st.users then
    match findActive st.assignments req.trainer_email req.assignment_date with
    | some existing =>
      if req.allow_overwrite then
        (AssignResp.created true,
          { st with assignments :=
              updateFirstById st.assignments existing.id (overwriteRecord req existing now) })
      else
        (AssignResp.conflict existing, st)
    | none =>
      (AssignResp.created false,
        { st with
          assignments := st.assignments ++ [insertRecord req st.nextId now]
          nextId := st.nextId + 1 })
  else
    (AssignResp.trainerNotFound, st)

/-- Helper: updateFirstById preserves the collection length. -/
theorem updateFirstById_length (l : List Assignment) (i : Nat) (r : Assignment) :
    (updateFirstById l i r).length = l.length := by
  induction l with
  | nil => rfl
  | cons a rest ih =>
    simp only [updateFirstById]
    split_ifs <;> simp [ih]

/-- Helper: if some document has the id, the replacement document is a
member of the updated collection. -/
theorem updateFirstById_mem (l : List Assignment) (i : Nat) (r : Assignment)
    (h : ∃ a ∈ l, a.id = i) : r ∈ updateFirstById l i r := by
  induction l with
  | nil =>
    rcases h with ⟨a, ha, _⟩
    cases ha
  | cons a rest ih =>
    simp only [updateFirstById]
    split_ifs with hid
    · exact List.mem_cons_self _ _
    · rcases h with ⟨b, hb, hbi⟩
      rcases List.mem_cons.mp hb with rfl | hb'
      · exact absurd hbi hid
      · exact List.mem_cons_of_mem _ (ih ⟨b, hb', hbi⟩)

/-- C6: when an active assignment already exists for (trainer, date), an
otherwise valid assign-schools request without the overwrite flag returns
the conflict response (HTTP 409) carrying the pre-existing assignment, and
leaves the store unchanged (no write). -/
theorem c6_conflict_on_double_assign (today now : Nat) (st : Store) (req : AssignReq)
    (ex : Assignment)
    (h1 : ¬(req.controller_email = "" ∨ req.trainer_email = "" ∨ req.schools = []))
    (h2 : ¬ req.assignment_date < today)
    (h3 : ¬ today + 7 < req.assignment_date)
    (h4 : ¬ ∃ s ∈ req.schools, s.school_name = "" ∨ s.city = "")
    (h5 : req.trainer_email ∈ st.users)
    (h6 : findActive st.assignments req.trainer_email req.assignment_date = some ex)
    (h7 : req.allow_overwrite = false) :
    assign_schools today now st req = (AssignResp.conflict ex, st) ∧
    (assign_schools today now st req).1.httpStatus = 409 := by
  have h : assign_schools today now st req = (AssignResp.conflict ex, st) := by
    unfold assign_schools
    rw [if_neg h1, if_neg h2, if_neg h3, if_neg h4, if_pos h5, h6]
    simp [h7]
  exact ⟨h, by rw [h]; rfl⟩

/-- Concrete assignment already stored for trainer t@x on day 5. -/
def demoAssignment : Assignment :=
  { id := 1, controller_email := "c@x", trainer_email := "t@x", assignment_date := 5,
    schools := [demoSchoolA], created_at := 3, status := "active", updated_at := none,
    previous_assignment_id := none, last_sync_update := none }

/-- Concrete store with one active assignment and one registered trainer. -/
def demoStore : Store :=
  { assignments := [demoAssignment], users := ["t@x"], nextId := 2 }

/-- Concrete client-sent school carrying junk audit fields that
assign_schools must reset. -/
def demoClientSchool : SchoolRec :=
  { school_name := "Central", city := "Delhi", audit_status := "completed",
    audit_id := some 9, last_updated := some 4, audit_started_at := some 2,
    audit_completed_at := some 3 }

/-- Concrete assign-schools request for trainer t@x on day 5. -/
def demoReq (ow : Bool) : AssignReq :=
  { controller_email := "c2@x", trainer_email := "t@x", assignment_date := 5,
    schools := [demoClientSchool], allow_overwrite := ow }

/-- Concrete instantiation of c6_conflict_on_double_assign. -/
theorem c6_witness :
    assign_schools 5 10 demoStore (demoReq false) = (AssignResp.conflict demoAssignment, demoStore) ∧
    (assign_schools 5 10 demoStore (demoReq false)).1.httpStatus = 409 :=
  c6_conflict_on_double_assign 5 10 demoStore (demoReq false) demoAssignment
    (by decide) (by decide) (by decide) (by decide) (by decide) (by decide) rfl

/-- C8 counterexample: overwriting the day-5 assignment (stored
created_at 3) at time now = 10 leaves a collection whose only document
carries created_at 10: the created_at field is re-stamped by the
overwrite, not left unchanged as the claim states. -/
theorem c8_counterexample :
    ((assign_schools 5 10 demoStore (demoReq true)).2.assignments.map
      Assignment.created_at) = [10] ∧
    demoAssignment.created_at = 3 ∧
    ((assign_schools 5 10 demoStore (demoReq true)).2.assignments.map
      Assignment.created_at) ≠ [demoAssignment.created_at] := by
  refine ⟨by decide, rfl, by decide⟩

/-- C8 amended: with the overwrite flag and an existing active assignment,
the existing document is replaced in place (the collection keeps its
length and the stored document keeps its identity and records the previous
id) and updated_at is stamped with the current time, but created_at is
also re-stamped with the current time rather than left unchanged. -/
theorem c8_amended_overwrite_restamps_created_at (today now : Nat) (st : Store)
    (req : AssignReq) (ex : Assignment)
    (h1 : ¬(req.controller_email = "" ∨ req.trainer_email = "" ∨ req.schools = []))
    (h2 : ¬ req.assignment_date < today)
    (h3 : ¬ today + 7 < req.assignment_date)
    (h4 : ¬ ∃ s ∈ req.schools, s.school_name = "" ∨ s.city = "")
    (h5 : req.trainer_email ∈ st.users)
    (h6 : findActive st.assignments req.trainer_email req.assignment_date = some ex)
    (h7 : req.allow_overwrite = true) :
    (assign_schools today now st req).1 = AssignResp.created true ∧
    (assign_schools today now st req).2.assignments.length = st.assignments.length ∧
    ∃ a' ∈ (assign_schools today now st req).2.assignments,
      a'.id = ex.id ∧ a'.previous_assignment_id = some ex.id ∧
      a'.updated_at = some now ∧ a'.created_at = now := by
  have hmem : ex ∈ st.assignments := List.mem_of_find?_eq_some h6
  have h : assign_schools today now st req =
      (AssignResp.created true,
        { st with assignments :=
            updateFirstById st.assignments ex.id (overwriteRecord req ex now) }) := by
    unfold assign_schools
    rw [if_neg h1, if_neg h2, if_neg h3, if_neg h4, if_pos h5, h6]
    simp [h7]
  rw [h]
  refine ⟨rfl, updateFirstById_length _ _ _, ?_⟩
  exact ⟨overwriteRecord req ex now, updateFirstById_mem _ _ _ ⟨ex, hmem, rfl⟩,
    rfl, rfl, rfl, rfl⟩

/-- Concrete instantiation of c8_amended_overwrite_restamps_created_at. -/
theorem c8_amended_witness :
    (assign_schools 5 10 demoStore (demoReq true)).1 = AssignResp.created true ∧
    (assign_schools 5 10 demoStore (demoReq true)).2.assignments.length
      = demoStore.assignments.length ∧
    ∃ a' ∈ (assign_schools 5 10 demoStore (demoReq true)).2.assignments,
      a'.id = demoAssignment.id ∧ a'.previous_assignment_id = some demoAssignment.id ∧
      a'.updated_at = some 10 ∧ a'.created_at = 10 :=
  c8_amended_overwrite_restamps_created_at 5 10 demoStore (demoReq true) demoAssignment
    (by decide) (by decide) (by decide) (by decide) (by decide) (by decide) rfl

/-- Helper: every school produced by initSchool has the reset audit
fields. -/
theorem initSchool_resets (l : List SchoolRec) : ∀ s' ∈ l.map initSchool,
    s'.audit_status = "pending" ∧ s'.audit_id = none ∧ s'.last_updated = none ∧
    s'.audit_started_at = none ∧ s'.audit_completed_at = none := by
  intro s' hs'
  obtain ⟨s, _, rfl⟩ := List.mem_map.mp hs'
  simp [initSchool]

/-- C9: after every successful assign-schools request (response created),
the stored assignment holds exactly the request schools passed through the
audit-field initialisation, so each stored school element has audit_status
pending, audit_id none, and null last_updated, audit_started_at and
audit_completed_at, regardless of the audit-status values the client sent. -/
theorem c9_assign_resets_audit_fields (today now : Nat) (st : Store) (req : AssignReq)
    (b : Bool) (st' : Store)
    (h : assign_schools today now st req = (AssignResp.created b, st')) :
    ∃ a' ∈ st'.assignments,
      a'.trainer_email = req.trainer_email ∧
      a'.assignment_date = req.assignment_date ∧
      a'.schools = req.schools.map initSchool ∧
      ∀ s' ∈ a'.schools,
        s'.audit_status = "pending" ∧ s'.audit_id = none ∧ s'.last_updated = none ∧
        s'.audit_started_at = none ∧ s'.audit_completed_at = none := by
  unfold assign_schools at h
  split at h
  · simp at h
  · split at h
    · simp at h
    · split at h
      · simp at h
      · split at h
        · simp at h
        · split at h
          · split at h
            · split at h
              · rename_i existing heq hov
                rw [Prod.mk.injEq] at h
                obtain ⟨-, hst⟩ := h
                have hmem : existing ∈ st.assignments := List.mem_of_find?_eq_some heq
                refine ⟨overwriteRecord req existing now, ?_, rfl, rfl, rfl,
                  initSchool_resets _⟩
                rw [← hst]
                exact updateFirstById_mem _ _ _ ⟨existing, hmem, rfl⟩
              · simp at h
            · rw [Prod.mk.injEq] at h
              obtain ⟨-, hst⟩ := h
              refine ⟨insertRecord req st.nextId now, ?_, rfl, rfl, rfl,
                initSchool_resets _⟩
              rw [← hst]
              simp
          · simp at h

/-- Concrete instantiation of c9_assign_resets_audit_fields: the client
sent a school with audit_status completed and a non-null audit_id, and the
stored assignment carries it reset to pending with null audit fields. -/
theorem c9_witness :
    ∃ a' ∈ (assign_schools 5 10 demoStore (demoReq true)).2.assignments,
      a'.trainer_email = (demoReq true).trainer_email ∧
      a'.assignment_date = (demoReq true).assignment_date ∧
      a'.schools = (demoReq true).schools.map initSchool ∧
      ∀ s' ∈ a'.schools,
        s'.audit_status = "pending" ∧ s'.audit_id = none ∧ s'.last_updated = none ∧
        s'.audit_started_at = none ∧ s'.audit_completed_at = none :=
  c9_assign_resets_audit_fields 5 10 demoStore (demoReq true) true
    (assign_schools 5 10 demoStore (demoReq true)).2 (by decide)

/-- update_one({'_id': aid}, {'$set': {'status': 'deleted'}}) of
delete_assignment: Mongo matches the first document with the id and
reports modified_count 1 only if the $set actually changed it (a document
already in status deleted is matched but not modified).  Returns
(modified_count, updated collection). -/
def setStatusDeletedById : List Assignment → Nat → Nat × List Assignment
  | [], _ => (0, [])
  | a :: rest, i =>
    if a.id = i then
      if a.status = "deleted" then (0, a :: rest)
      else (1, { a with status := "deleted" } :: rest)
    else
      let r := setStatusDeletedById rest i
      (r.1, a :: r.2)

/-- The /delete-assignment/{id} route: soft-delete, answering 404 when
modified_count is zero and 200 otherwise. -/
def delete_assignment (st : Store) (aid : Nat) : Nat × Store :=
  let r := setStatusDeletedById st.assignments aid
  if r.1 = 0 then (404, { st with assignments := r.2 })
  else (200, { st with assignments := r.2 })

/-- Helper: documents whose id is absent are left alone with
modified_count 0. -/
theorem setStatusDeletedById_none (l : List Assignment) (i : Nat)
    (h : l.find? (fun x => x.id == i) = none) : setStatusDeletedById l i = (0, l) := by
  induction l with
  | nil => rfl
  | cons a rest ih =>
    rw [List.find?_cons] at h
    revert h
    split
    · intro h
      cases h
    · intro h
      rename_i hfalse
      have hne : ¬ a.id = i := by simpa using hfalse
      simp [setStatusDeletedById, hne, ih h]

/-- Helper: when the first matching document is already deleted, nothing
is modified. -/
theorem setStatusDeletedById_deleted (l : List Assignment) (i : Nat) (a : Assignment)
    (h : l.find? (fun x => x.id == i) = some a) (hdel : a.status = "deleted") :
    setStatusDeletedById l i = (0, l) := by
  induction l with
  | nil => cases h
  | cons b rest ih =>
    rw [List.find?_cons] at h
    revert h
    split
    · intro h
      rename_i htrue
      have hid : b.id = i := by simpa using htrue
      cases h
      simp [setStatusDeletedById, hid, hdel]
    · intro h
      rename_i hfalse
      have hne : ¬ b.id = i := by simpa using hfalse
      simp [setStatusDeletedById, hne, ih h]

/-- Helper: when the first matching document is not deleted, exactly it is
modified, and afterwards the first matching document is its deleted copy. -/
theorem setStatusDeletedById_live (l : List Assignment) (i : Nat) (a : Assignment)
    (h : l.find? (fun x => x.id == i) = some a) (hlive : a.status ≠ "deleted") :
    (setStatusDeletedById l i).1 = 1 ∧
    (setStatusDeletedById l i).2.find? (fun x => x.id == i)
      = some { a with status := "deleted" } := by
  induction l with
  | nil => cases h
  | cons b rest ih =>
    rw [List.find?_cons] at h
    revert h
    split
    · intro h
      rename_i htrue
      have hid : b.id = i := by simpa using htrue
      cases h
      refine ⟨by simp [setStatusDeletedById, hid, hlive], ?_⟩
      have : (setStatusDeletedById (a :: rest) i).2
          = { a with status := "deleted" } :: rest := by
        simp [setStatusDeletedById, hid, hlive]
      rw [this, List.find?_cons_of_pos]
      simpa using hid
    · intro h
      rename_i hfalse
      have hne : ¬ b.id = i := by simpa using hfalse
      obtain ⟨ih1, ih2⟩ := ih h
      have : (setStatusDeletedById (b :: rest) i).2 = b :: (setStatusDeletedById rest i).2 := by
        simp [setStatusDeletedById, hne]
      refine ⟨by simpa [setStatusDeletedById, hne] using ih1, ?_⟩
      rw [this, List.find?_cons_of_neg, ih2]
      simpa using hne

/-- C10: a delete-assignment request for an id whose document does not
exist, or whose first matching document is already deleted, answers 404
and leaves the store unchanged; for a live document the first request
answers 200 and a second request for the same id answers 404 (soft delete
is not idempotent at the HTTP interface). -/
theorem c10_delete_twice_404 (st : Store) (aid : Nat) :
    (st.assignments.find? (fun x => x.id == aid) = none →
      delete_assignment st aid = (404, st)) ∧
    (∀ a, st.assignments.find? (fun x => x.id == aid) = some a → a.status = "deleted" →
      delete_assignment st aid = (404, st)) ∧
    (∀ a, st.assignments.find? (fun x => x.id == aid) = some a → a.status ≠ "deleted" →
      (delete_assignment st aid).1 = 200 ∧
      (delete_assignment (delete_assignment st aid).2 aid).1 = 404) := by
  refine ⟨?_, ?_, ?_⟩
  · intro h
    simp [delete_assignment, setStatusDeletedById_none st.assignments aid h]
  · intro a h hdel
    simp [delete_assignment, setStatusDeletedById_deleted st.assignments aid a h hdel]
  · intro a h hlive
    obtain ⟨h1, h2⟩ := setStatusDeletedById_live st.assignments aid a h hlive
    have hfirst : delete_assignment st aid
        = (200, { st with assignments := (setStatusDeletedById st.assignments aid).2 }) := by
      simp [delete_assignment, h1]
    refine ⟨by rw [hfirst], ?_⟩
    rw [hfirst]
    have hsecond := setStatusDeletedById_deleted
      (setStatusDeletedById st.assignments aid).2 aid
      { a with status := "deleted" } h2 rfl
    simp [delete_assignment, hsecond]

/-- Concrete instantiation of c10_delete_twice_404: deleting the demo
assignment answers 200, deleting it again answers 404. -/
theorem c10_witness :
    (delete_assignment demoStore 1).1 = 200 ∧
    (delete_assignment (delete_assignment demoStore 1).2 1).1 = 404 :=
  (c10_delete_twice_404 demoStore 1).2.2 demoAssignment (by decide) (by decide)

/-- find_one on school_audits sorted by created_at descending, filtered by
user_email, school_name, city and assignment_date (the query of
sync_audit_status_from_audits): a most recent matching audit.  On
created_at ties the earliest stored one is kept, a deterministic choice
for the unspecified Mongo tie order. -/
def findLatestAudit (audits : List Audit) (trainer school city : String) (adate : Nat) :
    Option Audit :=
  (audits.filter (fun a => a.user_email == trainer && a.school_name == school &&
    a.city == city && a.assignment_date == some adate)).foldl
    (fun acc a =>
      match acc with
      | none => some a
      | some b => if b.created_at < a.created_at then some a else some b) none

/-- One school step of the sync loop: skip schools with missing name or
city, otherwise compare the stored audit_status with the freshly resolved
one and update the school fields only when they differ; with no matching
audit, reset a non-pending school to pending.  Returns the school and
whether it changed. -/
def syncSchool (audits : List Audit) (trainer : String) (adate now : Nat) (s : SchoolRec) :
    SchoolRec × Bool :=
  if s.school_name = "" ∨ s.city = "" then (s, false)
  else
    match findLatestAudit audits trainer s.school_name s.city adate with
    | some audit =>
      if s.audit_status ≠ audit.status then
        ({ s with
           audit_status := audit.status
           audit_id := some audit.id
           last_updated := some now
           audit_started_at :=
             if audit.status = "in_progress" then some audit.created_at
             else s.audit_started_at
           audit_completed_at :=
             if audit.status = "completed" then some (audit.completed_at.getD audit.created_at)
             else s.audit_completed_at }, true)
      else (s, false)
    | none =>
      if s.audit_status ≠ "pending" then
        ({ s with
           audit_status := "pending"
           audit_id := none
           last_updated := some now }, true)
      else (s, false)

/-- The school loop of one assignment: updated school list and whether any
school changed. -/
def syncSchools (audits : List Audit) (trainer : String) (adate now : Nat) :
    List SchoolRec → List SchoolRec × Bool
  | [] => ([], false)
  | s :: rest =>
    let r := syncSchool audits trainer adate now s
    let rr := syncSchools audits trainer adate now rest
    (r.1 :: rr.1, r.2 || rr.2)

/-- The per-assignment block of the sync loop: run the school loop and
persist (stamping last_sync_update) only when some school changed. -/
def syncOneAssignment (audits : List Audit) (now : Nat) (a : Assignment) : Assignment × Bool :=
  let r := syncSchools audits a.trainer_email a.assignment_date now a.schools
  if r.2 then
    ({ a with
       schools := r.1
       last_sync_update := some now }, true)
  else (a, false)

/-- The whole sync_audit_status_from_audits scan: every active assignment
dated on or after startDate is processed; synced_count counts the
assignments actually written. -/
def syncAssignments (audits : List Audit) (now startDate : Nat) :
    List Assignment → List Assignment × Nat
  | [] => ([], 0)
  | a :: rest =>
    let rr := syncAssignments audits now startDate rest
    if startDate ≤ a.assignment_date ∧ a.status = "active" then
      let r := syncOneAssignment audits now a
      if r.2 then (r.1 :: rr.1, rr.2 + 1) else (a :: rr.1, rr.2)
    else (a :: rr.1, rr.2)

/-- Helper: one sync step never changes a school's identity fields. -/
theorem syncSchool_fields (audits : List Audit) (trainer : String) (adate now : Nat)
    (s : SchoolRec) :
    (syncSchool audits trainer adate now s).1.school_name = s.school_name ∧
    (syncSchool audits trainer adate now s).1.city = s.city := by
  unfold syncSchool
  repeat' split
  all_goals simp

/-- Helper: after one sync step the school's stored status agrees with the
resolved one. -/
theorem syncSchool_status (audits : List Audit) (trainer : String) (adate now : Nat)
    (s : SchoolRec) (hempty : ¬(s.school_name = "" ∨ s.city = "")) :
    (∀ audit, findLatestAudit audits trainer s.school_name s.city adate = some audit →
      (syncSchool audits trainer adate now s).1.audit_status = audit.status) ∧
    (findLatestAudit audits trainer s.school_name s.city adate = none →
      (syncSchool audits trainer adate now s).1.audit_status = "pending") := by
  constructor
  · intro audit hfind
    unfold syncSchool
    rw [if_neg hempty, hfind]
    by_cases hst : s.audit_status = audit.status
    · simp [hst]
    · simp [hst]
  · intro hfind
    unfold syncSchool
    rw [if_neg hempty, hfind]
    by_cases hst : s.audit_status = "pending"
    · simp [hst]
    · simp [hst]

/-- Helper: a school already in sync is returned unchanged with a false
flag, for any timestamp. -/
theorem syncSchool_noop (audits : List Audit) (trainer : String) (adate now : Nat)
    (s : SchoolRec)
    (h : ¬(s.school_name = "" ∨ s.city = "") →
      ((∀ audit, findLatestAudit audits trainer s.school_name s.city adate = some audit →
          s.audit_status = audit.status) ∧
        (findLatestAudit audits trainer s.school_name s.city adate = none →
          s.audit_status = "pending"))) :
    syncSchool audits trainer adate now s = (s, false) := by
  unfold syncSchool
  by_cases hempty : s.school_name = "" ∨ s.city = ""
  · rw [if_pos hempty]
  · rw [if_neg hempty]
    obtain ⟨hsome, hnone⟩ := h hempty
    cases hfind : findLatestAudit audits trainer s.school_name s.city adate with
    | some audit => simp [hsome audit hfind]
    | none => simp [hnone hfind]

/-- Helper: syncing an already-synced school is a no-op. -/
theorem syncSchool_idem (audits : List Audit) (trainer : String) (adate now now2 : Nat)
    (s : SchoolRec) :
    syncSchool audits trainer adate now2 (syncSchool audits trainer adate now s).1
      = ((syncSchool audits trainer adate now s).1, false) := by
  obtain ⟨hn, hc⟩ := syncSchool_fields audits trainer adate now s
  by_cases hempty : s.school_name = "" ∨ s.city = ""
  · have h1 : syncSchool audits trainer adate now s = (s, false) := by
      unfold syncSchool
      rw [if_pos hempty]
    rw [h1]
    exact syncSchool_noop audits trainer adate now2 s (fun hne => absurd hempty hne)
  · refine syncSchool_noop audits trainer adate now2 _ ?_
    intro hne
    rw [hn, hc]
    obtain ⟨hsome, hnone⟩ := syncSchool_status audits trainer adate now s hempty
    exact ⟨hsome, hnone⟩

/-- Helper: a school step that reported no change was an identity step,
and stays one for any timestamp. -/
theorem syncSchool_flag_false (audits : List Audit) (trainer : String) (adate now : Nat)
    (s : SchoolRec) (h : (syncSchool audits trainer adate now s).2 = false) :
    ∀ n, syncSchool audits trainer adate n s = (s, false) := by
  intro n
  unfold syncSchool at h ⊢
  by_cases hempty : s.school_name = "" ∨ s.city = ""
  · rw [if_pos hempty]
  · rw [if_neg hempty] at h ⊢
    cases hfind : findLatestAudit audits trainer s.school_name s.city adate with
    | some audit =>
      rw [hfind] at h
      by_cases hst : s.audit_status = audit.status
      · simp [hst]
      · simp [hst] at h
    | none =>
      rw [hfind] at h
      by_cases hst : s.audit_status = "pending"
      · simp [hst]
      · simp [hst] at h

/-- Helper: a school loop whose flag is false left every school unchanged,
and rerunning it with any timestamp changes nothing. -/
theorem syncSchools_of_flag_false (audits : List Audit) (trainer : String) (adate now : Nat)
    (l : List SchoolRec) (h : (syncSchools audits trainer adate now l).2 = false) :
    ∀ now2, syncSchools audits trainer adate now2 l = (l, false) := by
  induction l with
  | nil => intro now2; rfl
  | cons s rest ih =>
    intro now2
    simp only [syncSchools] at h
    rw [Bool.or_eq_false_iff] at h
    obtain ⟨h1, h2⟩ := h
    simp only [syncSchools]
    rw [syncSchool_flag_false audits trainer adate now s h1 now2, ih h2 now2]
    rfl

/-- Helper: rerunning the school loop on its own output changes nothing. -/
theorem syncSchools_idem (audits : List Audit) (trainer : String) (adate now now2 : Nat)
    (l : List SchoolRec) :
    syncSchools audits trainer adate now2 (syncSchools audits trainer adate now l).1
      = ((syncSchools audits trainer adate now l).1, false) := by
  induction l with
  | nil => rfl
  | cons s rest ih =>
    simp only [syncSchools]
    rw [syncSchool_idem audits trainer adate now now2 s, ih]
    rfl

/-- Helper: the per-assignment sync block keeps the assignment's date,
status and trainer. -/
theorem syncOne_fields (audits : List Audit) (now : Nat) (a : Assignment) :
    (syncOneAssignment audits now a).1.assignment_date = a.assignment_date ∧
    (syncOneAssignment audits now a).1.status = a.status ∧
    (syncOneAssignment audits now a).1.trainer_email = a.trainer_email := by
  unfold syncOneAssignment
  by_cases h : (syncSchools audits a.trainer_email a.assignment_date now a.schools).2 = true
  · simp [h]
  · simp [h]

/-- Helper: an assignment whose school loop reports no change is returned
unchanged with a false flag. -/
theorem syncOne_noop (audits : List Audit) (now : Nat) (a : Assignment)
    (h : syncSchools audits a.trainer_email a.assignment_date now a.schools
      = (a.schools, false)) :
    syncOneAssignment audits now a = (a, false) := by
  unfold syncOneAssignment
  rw [h]
  simp

/-- Helper: the overwrite form of the per-assignment sync block when some
school changed. -/
theorem syncOne_eq_true (audits : List Audit) (now : Nat) (a : Assignment)
    (h : (syncSchools audits a.trainer_email a.assignment_date now a.schools).2 = true) :
    syncOneAssignment audits now a =
      ({ a with
         schools := (syncSchools audits a.trainer_email a.assignment_date now a.schools).1
         last_sync_update := some now }, true) := by
  unfold syncOneAssignment
  rw [if_pos h]

/-- Helper: resyncing an already-synced assignment is a no-op. -/
theorem syncOne_idem (audits : List Audit) (now now2 : Nat) (a : Assignment) :
    syncOneAssignment audits now2 (syncOneAssignment audits now a).1
      = ((syncOneAssignment audits now a).1, false) := by
  by_cases h : (syncSchools audits a.trainer_email a.assignment_date now a.schools).2 = true
  · rw [syncOne_eq_true audits now a h]
    refine syncOne_noop audits now2 _ ?_
    exact syncSchools_idem audits a.trainer_email a.assignment_date now now2 a.schools
  · have hfalse : (syncSchools audits a.trainer_email a.assignment_date now a.schools).2
        = false := by
      simpa using h
    have hnoop : syncOneAssignment audits now a = (a, false) := by
      unfold syncOneAssignment
      rw [if_neg h]
    rw [hnoop]
    refine syncOne_noop audits now2 a ?_
    have hall := syncSchools_of_flag_false audits a.trainer_email a.assignment_date now
      a.schools hfalse
    exact hall now2

/-- Helper: when the per-assignment block reports no change, rerunning it
with any timestamp still changes nothing. -/
theorem syncOne_flag_false (audits : List Audit) (now : Nat) (a : Assignment)
    (h : ¬ (syncOneAssignment audits now a).2 = true) :
    ∀ n, syncOneAssignment audits n a = (a, false) := by
  intro n
  have hschools : (syncSchools audits a.trainer_email a.assignment_date now a.schools).2
      = false := by
    by_cases hs : (syncSchools audits a.trainer_email a.assignment_date now a.schools).2 = true
    · exfalso
      apply h
      rw [syncOne_eq_true audits now a hs]
    · simpa using hs
  exact syncOne_noop audits n a
    (syncSchools_of_flag_false audits a.trainer_email a.assignment_date now a.schools hschools n)

/-- C7: running the sync/write-back scan twice in a row over the same
audit collection, with no audit or assignment changes in between (the
second run starts from the first run's output), makes the second run leave
every assignment unchanged and report zero synced assignments: zero
writes. -/
theorem c7_sync_idempotent (audits : List Audit) (startDate now now2 : Nat)
    (l : List Assignment) :
    syncAssignments audits now2 startDate (syncAssignments audits now startDate l).1
      = ((syncAssignments audits now startDate l).1, 0) := by
  induction l with
  | nil => rfl
  | cons a rest ih =>
    simp only [syncAssignments]
    by_cases hcond : startDate ≤ a.assignment_date ∧ a.status = "active"
    · rw [if_pos hcond]
      by_cases hupd : (syncOneAssignment audits now a).2 = true
      · rw [if_pos hupd]
        simp only [syncAssignments]
        have hfields := syncOne_fields audits now a
        rw [if_pos (by rw [hfields.1, hfields.2.1]; exact hcond)]
        rw [syncOne_idem audits now now2 a]
        rw [ih]
        simp
      · rw [if_neg hupd]
        simp only [syncAssignments]
        rw [if_pos hcond]
        rw [syncOne_flag_false audits now a hupd now2]
        rw [ih]
        simp
    · rw [if_neg hcond]
      simp only [syncAssignments]
      rw [if_neg hcond, ih]
